import Mathlib

/-!
Verification of the REPL Session Controller of the PythonConsole repository.

The definitions below are a shallow embedding of the TypeScript source:

* `src/src/PythonConsole.tsx` — the current revision of the console
  component (`executeCode`, the stdout/stderr callbacks, the
  `pendingOutput` flush effect, `isContinueLastLine` / `isMultiLine`,
  `getObj`, the Tab handler, the ArrowUp/ArrowDown handlers, `isHtml`,
  `isPythonError`, `isPythonWarning`, `isPyodideTerminal`,
  `getOutputColor`).
* the IndexedDb revision embedded in `src/src/App.tsx` — the
  ArrowUp/ArrowDown handlers with the skip-while loop over
  non-navigable entries.

JavaScript strings are modelled by Lean `String`; the JS string methods
used by the source (`split`, `startsWith`, `endsWith`, `trim`,
`lastIndexOf`, `substring`) are modelled explicitly on `String.data`
(a `List Char`) below, keeping the JS corner cases: `split` on a string
without the separator yields a one-element list, `substring` clamps and
swaps its arguments, `lastIndexOf` yields `-1` when the character is
absent.

React state updates are modelled by pure state-transition functions on a
`ConsoleState` record; side effects observable outside the component
state (backend invocations, advisory notifications, writes to the HTML
injection sink) are recorded in an explicit `Effect` list.
-/

/-- Does the list `l` begin with the pattern `p`?  Models the character
walk performed by the JS `String.prototype.startsWith`. -/
def charsStart : List Char → List Char → Bool
  | [], _ => true
  | _ :: _, [] => false
  | p :: ps, c :: cs => p = c && charsStart ps cs

/-- Model of the JS `s.startsWith(pat)`. -/
def jsStartsWith (s pat : String) : Bool :=
  charsStart pat.data s.data

/-- Model of the JS `s.endsWith(pat)`. -/
def jsEndsWith (s pat : String) : Bool :=
  charsStart pat.data.reverse s.data.reverse

/-- Model of the JS `s.split(sep)` for a one-character separator: the
list of maximal chunks between occurrences of `sep`.  As in JS,
`"".split(sep)` is `[""]` and a string without the separator yields a
one-element list. -/
def jsSplit (s : String) (sep : Char) : List String :=
  (List.splitOn sep s.data).map String.mk

/-- JS whitespace characters relevant to `String.prototype.trim`. -/
def jsWhite (c : Char) : Bool :=
  c = ' ' || c = '\t' || c = '\n' || c = '\r' || c = '\x0b' || c = '\x0c'

/-- Model of the JS `s.trim()`: strip leading and trailing whitespace. -/
def jsTrim (s : String) : String :=
  ⟨((s.data.dropWhile jsWhite).reverse.dropWhile jsWhite).reverse⟩

/-- Accumulating scan behind `jsLastIndexOf`: `i` is the index of the
head of the remaining list, `acc` the last match seen so far. -/
def lastIdxAux : List Char → Char → Nat → Int → Int
  | [], _, _, acc => acc
  | x :: xs, c, i, acc => lastIdxAux xs c (i + 1) (if x = c then (i : Int) else acc)

/-- Model of the JS `s.lastIndexOf(c)`: the largest index holding `c`,
or `-1` when `c` does not occur. -/
def jsLastIndexOf (s : String) (c : Char) : Int :=
  lastIdxAux s.data c 0 (-1)

/-- Model of the JS `s.substring(a, b)`: both arguments are clamped into
`[0, s.length]` and swapped when out of order. -/
def jsSubstring (s : String) (a b : Int) : String :=
  let len : Int := (s.data.length : Int)
  let a' := min (max a 0) len
  let b' := min (max b 0) len
  let lo := (min a' b').toNat
  let hi := (max a' b').toNat
  ⟨(s.data.drop lo).take (hi - lo)⟩

/-- A transcript entry: the `HistoryItem` record of the source.
`output = none` models the TS value `null`. -/
structure HistoryItem where
  input : String
  output : Option String
deriving DecidableEq

/-- The React state of the `PythonConsole` component that the claims
are about (`history`, `historyIndex`, `currentInput`, `htmlInjection`,
`isPyodideReady`, `isExecuting`, `pendingOutput`). -/
structure ConsoleState where
  history : List HistoryItem
  historyIndex : Int
  currentInput : String
  htmlInjection : Option String
  isPyodideReady : Bool
  isExecuting : Bool
  pendingOutput : Option String
deriving DecidableEq

/-- Externally observable side effects of the controller: invoking the
execution backend (`pyodide.runPythonAsync`), an advisory notification
(`onMessage`), and a write to the HTML injection sink
(`setHtmlInjection` / the injected iframe). -/
inductive Effect where
  | backendInvoke (code : String)
  | advisory (msg : String)
  | htmlSink (payload : String)
deriving DecidableEq

/-- Source `isHtml`: the string starts with an `<html>` tag and ends
with the matching closing tag. -/
def isHtml (s : Option String) : Bool :=
  match s with
  | none => false
  | some s => jsStartsWith s "<html>" && jsEndsWith s "</html>"

/-- Source `isPythonError`. -/
def isPythonError (s : Option String) : Bool :=
  match s with
  | none => false
  | some s => jsStartsWith s "PythonError:"

/-- Source `isPythonWarning`. -/
def isPythonWarning (s : Option String) : Bool :=
  match s with
  | none => false
  | some s => jsStartsWith s "PythonWarning:"

/-- Source `isPyodideTerminal`. -/
def isPyodideTerminal (s : Option String) : Bool :=
  match s with
  | none => false
  | some s => jsStartsWith s "[Terminal]"

/-- Source `getOutputColor`: the display color assigned to an output
string, checked in the source order null, error, warning, terminal. -/
def getOutputColor (s : Option String) : String :=
  if s = none then "inherit"
  else if isPythonError s then "#ff00ff"
  else if isPythonWarning s then "#FFA500"
  else if isPyodideTerminal s then "#22ffff"
  else "inherit"

/-- The output classes of the specification (section 4.5). -/
inductive OutputKind where
  | isNone
  | html
  | error
  | warning
  | terminal
  | plain
deriving DecidableEq

/-- The output classification of specification section 4.5, composed
from the source predicates `isHtml`, `isPythonError`, `isPythonWarning`
and `isPyodideTerminal` in the precedence order the source applies
them: `executeCode` tests `isHtml` first, and `getOutputColor` then
tests error, warning, terminal in that order.  It is compared with the
source `getOutputColor` by the factoring theorem for claim C8. -/
def classifyOutput (s : Option String) : OutputKind :=
  if s = none then .isNone
  else if isHtml s then .html
  else if isPythonError s then .error
  else if isPythonWarning s then .warning
  else if isPyodideTerminal s then .terminal
  else .plain

/-- The fixed display color of each output class; `getOutputColor`
factors through `classifyOutput` via this map. -/
def colorOfKind : OutputKind → String
  | .isNone => "inherit"
  | .html => "inherit"
  | .error => "#ff00ff"
  | .warning => "#FFA500"
  | .terminal => "#22ffff"
  | .plain => "inherit"

/-- The last line of a multi-line buffer, i.e. the expression
`multilines[multilines.length - 1]` after a split on newlines; the
split never yields an empty list, so the default is never used. -/
def lastLineOf (text : String) : String :=
  (jsSplit text '\n').getLastD ""

/-- Source `isContinueLastLine`: the last line of the buffer ends with
a colon or a backslash. -/
def isContinueLastLine (text : String) : Bool :=
  jsEndsWith (lastLineOf text) ":" || jsEndsWith (lastLineOf text) "\\"

/-- Source `isMultiLine`: the buffer has more than one line and its
last line is non-empty. -/
def isMultiLine (text : String) : Bool :=
  decide ((jsSplit text '\n').length > 1) && !(lastLineOf text = "")

/-- Outcome of a plain (unshifted) Enter keypress. -/
inductive EnterAction where
  | submit
  | insertNewline
deriving DecidableEq

/-- The plain-Enter branch of the source `handleKeyDown`: insert a
newline when `isContinueLastLine` or `isMultiLine` holds, otherwise
submit the buffer. -/
def enterAction (text : String) : EnterAction :=
  if isContinueLastLine text || isMultiLine text then .insertNewline else .submit

/-- Source `getObj`: split the last line of the buffer at its last dot
into the object expression and the partial token after the dot. -/
def getObj (text : String) : String × String :=
  let inputLines := jsSplit text '\n'
  let lastLine := inputLines.getLastD ""
  let dotIndex := jsLastIndexOf lastLine '.'
  (jsSubstring lastLine 0 dotIndex,
    if (lastLine.data.length : Int) - 1 = dotIndex then ""
    else jsSubstring lastLine (dotIndex + 1) (lastLine.data.length : Int))

/-- The buffer mutation performed by the Tab branch of the source
`handleKeyDown` once the suggestion list has arrived: when the partial
token is non-empty and some suggestion starts with it, the whole
current input is set to `obj ++ "." ++ suggestion`; otherwise the
buffer is unchanged. -/
def tabComplete (current : String) (suggestions : List String) : String :=
  let ox := getObj current
  if ox.2 = "" then current
  else
    match suggestions.find? (fun sugg => jsStartsWith sugg ox.2) with
    | some m => ox.1 ++ "." ++ m
    | none => current

/-- The synchronous part of the source `executeCode`: drop blank
submissions, advise and drop when the backend is not ready, otherwise
set `isExecuting` and invoke the backend. -/
def executeCodeStart (s : ConsoleState) (code : String) : ConsoleState × List Effect :=
  if jsTrim code = "" then (s, [])
  else if s.isPyodideReady = false then
    (s, [.advisory "Pyodide is still loading. Please wait..."])
  else
    ({ s with isExecuting := true }, [.backendInvoke code])

/-- The `.then` continuation of the source `executeCode`: stringify the
result when present, route HTML payloads to the injection sink (the
entry output becoming null in that case), append the entry, leave the
Busy state and clear the input buffer.  `result = none` models an
undefined or null backend result. -/
def executeCodeResolve (s : ConsoleState) (code : String) (result : Option String) :
    ConsoleState × List Effect :=
  match result with
  | none =>
      ({ s with history := s.history ++ [⟨code, none⟩],
                isExecuting := false, currentInput := "" }, [])
  | some r =>
      if isHtml (some r) then
        ({ s with htmlInjection := some r,
                  history := s.history ++ [⟨code, none⟩],
                  isExecuting := false, currentInput := "" }, [.htmlSink r])
      else
        ({ s with history := s.history ++ [⟨code, some r⟩],
                  isExecuting := false, currentInput := "" }, [])

/-- The `.catch` continuation of the source `executeCode`: leave the
Busy state and append an entry holding the stringified error.  The
input buffer and the history cursor are not touched here. -/
def executeCodeReject (s : ConsoleState) (code : String) (errStr : String) : ConsoleState :=
  { s with isExecuting := false, history := s.history ++ [⟨code, some errStr⟩] }

/-- An Enter submission whose backend invocation later fails: the
synchronous part of `executeCode`, the `setHistoryIndex(-1)` performed
by the Enter branch of `handleKeyDown` right after the call, then the
`.catch` continuation. -/
def submitAndFail (s : ConsoleState) (code errStr : String) : ConsoleState :=
  let s1 := (executeCodeStart s code).1
  let s2 := { s1 with historyIndex := -1 }
  executeCodeReject s2 code errStr

/-- The `stdout` callback passed to `loadPyodide` in the source: when
the chunk is not null, prepend the terminal tag and store the result in
the single-slot `pendingOutput` buffer unless it equals the literal
string None. -/
def stdoutCallback (s : ConsoleState) (chunk : Option String) : ConsoleState :=
  match chunk with
  | none => s
  | some t =>
      let str := "[Terminal]\n" ++ t
      if str = "None" then s else { s with pendingOutput := some str }

/-- The `stderr` callback passed to `loadPyodide`; its source body is
identical to the `stdout` callback. -/
def stderrCallback (s : ConsoleState) (chunk : Option String) : ConsoleState :=
  match chunk with
  | none => s
  | some t =>
      let str := "[Terminal]\n" ++ t
      if str = "None" then s else { s with pendingOutput := some str }

/-- The source effect on `[isExecuting, pendingOutput]`: once the
component is no longer executing and a pending chunk exists, append it
as a synthetic entry with empty input and clear the slot. -/
def flushPending (s : ConsoleState) : ConsoleState :=
  if s.isExecuting = false ∧ s.pendingOutput ≠ none then
    { s with history := s.history ++ [⟨"", s.pendingOutput⟩], pendingOutput := none }
  else s

/-- The transcript entry the cursor value `i` denotes: the source
expression `history[history.length - 1 - i].input` (index 0 is the most
recent entry).  Out-of-range accesses, which the source guards rule
out, default to the empty string. -/
def histInputAt (hist : List HistoryItem) (i : Int) : String :=
  (hist.getD ((( hist.length : Int) - 1 - i).toNat) ⟨"", none⟩).input

/-- The ArrowUp branch of `handleKeyDown` in `PythonConsole.tsx` (the
revision without the skip loop), acting on the pair of the history
cursor and the input buffer; the transcript itself is never modified. -/
def recallOlder (hist : List HistoryItem) (p : Int × String) : Int × String :=
  if p.1 < (hist.length : Int) - 1 then
    (p.1 + 1, histInputAt hist (p.1 + 1))
  else p

/-- The ArrowDown branch of `handleKeyDown` in `PythonConsole.tsx` (the
revision without the skip loop). -/
def recallNewer (hist : List HistoryItem) (p : Int × String) : Int × String :=
  if p.1 > 0 then (p.1 - 1, histInputAt hist (p.1 - 1))
  else if p.1 = 0 then (-1, "")
  else p

/-- The skip condition of the ArrowUp/ArrowDown while loops in the
IndexedDb revision of `App.tsx`: version-probe entries and synthetic
out-of-band entries are not navigable. -/
def nonNavigable (s : String) : Bool :=
  s = "Python version" || s = ""

/-- The ArrowUp while loop of the IndexedDb revision: advance the
candidate cursor past non-navigable entries while it stays strictly
below the boundary index `history.length - 1`. -/
def skipOlderLoop (hist : List HistoryItem) (newIndex : Int) : Int :=
  if newIndex < (hist.length : Int) - 1 then
    if nonNavigable (histInputAt hist newIndex) then skipOlderLoop hist (newIndex + 1)
    else newIndex
  else newIndex
termination_by ((hist.length : Int) - 1 - newIndex).toNat
decreasing_by omega

/-- The ArrowDown while loop of the IndexedDb revision: move the
candidate cursor past non-navigable entries while it stays strictly
above the boundary index 0. -/
def skipNewerLoop (hist : List HistoryItem) (newIndex : Int) : Int :=
  if newIndex > 0 then
    if nonNavigable (histInputAt hist newIndex) then skipNewerLoop hist (newIndex - 1)
    else newIndex
  else newIndex
termination_by newIndex.toNat
decreasing_by omega

/-- The ArrowUp branch of `handleKeyDown` in the IndexedDb revision of
`App.tsx`: guard on the raw boundary, then run the skip loop from
`historyIndex + 1` and display the entry the loop lands on. -/
def recallOlderSkip (hist : List HistoryItem) (idx : Int) (cur : String) : Int × String :=
  if idx < (hist.length : Int) - 1 then
    let j := skipOlderLoop hist (idx + 1)
    (j, histInputAt hist j)
  else (idx, cur)

/-- The ArrowDown branch of `handleKeyDown` in the IndexedDb revision
of `App.tsx`. -/
def recallNewerSkip (hist : List HistoryItem) (idx : Int) (cur : String) : Int × String :=
  if idx > 0 then
    let j := skipNewerLoop hist (idx - 1)
    (j, histInputAt hist j)
  else if idx = 0 then (-1, "")
  else (idx, cur)

theorem charsStart_take (p l : List Char) :
    charsStart p l = true ↔ l.take p.length = p := by
  induction p generalizing l with
  | nil => simp [charsStart]
  | cons a as ih =>
    cases l with
    | nil => simp [charsStart]
    | cons c cs =>
      simp [charsStart, List.take_succ_cons, ih, List.cons.injEq]
      exact fun _ => eq_comm

theorem jsStartsWith_take_eq (s p q : String)
    (hp : jsStartsWith s p = true) (hq : jsStartsWith s q = true)
    (hle : p.data.length ≤ q.data.length) :
    q.data.take p.data.length = p.data := by
  rw [jsStartsWith, charsStart_take] at hp hq
  calc q.data.take p.data.length
      = (s.data.take q.data.length).take p.data.length := by rw [hq]
    _ = s.data.take (min p.data.length q.data.length) := by rw [List.take_take]
    _ = s.data.take p.data.length := by rw [min_eq_left hle]
    _ = p.data := hp

theorem not_starts_of_starts (s p q : String) (hp : jsStartsWith s p = true)
    (hle : p.data.length ≤ q.data.length)
    (hne : p.data ≠ q.data.take p.data.length) :
    jsStartsWith s q = false := by
  by_contra h
  rw [Bool.not_eq_false] at h
  exact hne (jsStartsWith_take_eq s p q hp h hle).symm

theorem terminal_tag_starts (t : String) :
    jsStartsWith ("[Terminal]\n" ++ t) "[Terminal]" = true := by
  rw [jsStartsWith, charsStart_take, String.data_append,
    List.take_append_of_le_length (by decide)]
  decide

theorem terminal_tag_ne_none (t : String) : ("[Terminal]\n" ++ t) ≠ "None" := by
  intro h
  have hd := congrArg String.length h
  rw [String.length_append] at hd
  have h1 : ("[Terminal]\n" : String).length = 11 := by decide
  have h2 : ("None" : String).length = 4 := by decide
  omega

/-- Claim C7: for every input buffer, a plain (unshifted) Enter
keypress submits the buffer unless the last line of the buffer ends
with a colon or a backslash, or the buffer contains more than one line
and its last line is non-empty; in either exception case Enter appends
a newline to the buffer instead of submitting. -/
theorem enter_submission_rule_c7 : ∀ text : String,
    (enterAction text = EnterAction.submit ↔
      (jsEndsWith (lastLineOf text) ":" = false ∧
        jsEndsWith (lastLineOf text) "\\" = false) ∧
      ((jsSplit text '\n').length ≤ 1 ∨ lastLineOf text = "")) ∧
    (enterAction text = EnterAction.insertNewline ↔
      (jsEndsWith (lastLineOf text) ":" = true ∨
        jsEndsWith (lastLineOf text) "\\" = true) ∨
      ((jsSplit text '\n').length > 1 ∧ ¬ lastLineOf text = "")) := by
  intro text
  by_cases h1 : jsEndsWith (lastLineOf text) ":" = true <;>
    by_cases h2 : jsEndsWith (lastLineOf text) "\\" = true <;>
    by_cases h3 : (jsSplit text '\n').length > 1 <;>
    by_cases h4 : lastLineOf text = "" <;>
    simp_all [enterAction, isContinueLastLine, isMultiLine]

/-- Claim C8: output classification is total on string-or-null inputs
(`classifyOutput` is a total Lean function) and applies the precedence
order null, Html, Error, Warning, Terminal, Plain with first match
winning; a string starting with the error tag is never classified
Warning, and the source color assignment `getOutputColor` factors
through the classification via the per-class color map `colorOfKind`,
so every class has exactly one display color. -/
theorem output_classification_c8 :
    (∀ s : String, jsStartsWith s "PythonError:" = true →
      classifyOutput (some s) ≠ OutputKind.warning) ∧
    (∀ o : Option String, getOutputColor o = colorOfKind (classifyOutput o)) := by
  constructor
  · intro s hs
    by_cases hh : isHtml (some s) = true
    · simp [classifyOutput, hh]
    · simp [classifyOutput, hh, isPythonError, hs]
  · intro o
    match o with
    | none => rfl
    | some s =>
      by_cases hh : isHtml (some s) = true
      · have hstart : jsStartsWith s "<html>" = true := by
          rw [isHtml, Bool.and_eq_true] at hh
          exact hh.1
        have hE : jsStartsWith s "PythonError:" = false :=
          not_starts_of_starts s "<html>" "PythonError:" hstart (by decide) (by decide)
        have hW : jsStartsWith s "PythonWarning:" = false :=
          not_starts_of_starts s "<html>" "PythonWarning:" hstart (by decide) (by decide)
        have hT : jsStartsWith s "[Terminal]" = false :=
          not_starts_of_starts s "<html>" "[Terminal]" hstart (by decide) (by decide)
        simp [classifyOutput, getOutputColor, colorOfKind, hh,
          isPythonError, isPythonWarning, isPyodideTerminal, hE, hW, hT]
      · by_cases he : isPythonError (some s) = true
        · simp [classifyOutput, getOutputColor, colorOfKind, hh, he]
        · by_cases hw : isPythonWarning (some s) = true
          · simp [classifyOutput, getOutputColor, colorOfKind, hh, he, hw]
          · by_cases ht : isPyodideTerminal (some s) = true
            · simp [classifyOutput, getOutputColor, colorOfKind, hh, he, hw, ht]
            · simp [classifyOutput, getOutputColor, colorOfKind, hh, he, hw, ht]

/-- Witness for C8 at concrete inputs: an error-tagged string is not
classified Warning, and the color of a concrete terminal string is the
color of its class. -/
theorem output_classification_c8_witness :
    classifyOutput (some "PythonError: boom") ≠ OutputKind.warning ∧
    getOutputColor (some "[Terminal]\nhi") =
      colorOfKind (classifyOutput (some "[Terminal]\nhi")) :=
  ⟨output_classification_c8.1 "PythonError: boom" (by decide),
   output_classification_c8.2 (some "[Terminal]\nhi")⟩

theorem not_starts_of_starts_short (s p q : String) (hp : jsStartsWith s p = true)
    (hle : q.data.length ≤ p.data.length)
    (hne : q.data ≠ p.data.take q.data.length) :
    jsStartsWith s q = false := by
  by_contra h
  rw [Bool.not_eq_false] at h
  exact hne (jsStartsWith_take_eq s q p h hp hle).symm

/-- The session state at the heart of claim C1: the backend is ready
and an execution is already in flight (`isExecuting = true`, Busy). -/
def busyState : ConsoleState :=
  { history := [], historyIndex := -1, currentInput := "",
    htmlInjection := none, isPyodideReady := true, isExecuting := true,
    pendingOutput := none }

/-- Claim C1 evaluated on the code: `executeCode` has no guard on
`isExecuting`, so a submission made while an execution is in flight is
NOT rejected — evaluating the embedding in the Busy state shows the
effect list consists of a second backend invocation and contains no
advisory notification, contradicting the claimed single-in-flight
rejection. -/
theorem busy_submission_not_rejected_c1 :
    (executeCodeStart busyState "1+1").2 = [Effect.backendInvoke "1+1"] ∧
    (executeCodeStart busyState "1+1").1.isExecuting = true := by
  constructor
  · decide
  · decide

/-- A concrete idle, ready session state used by several witnesses. -/
def idleState : ConsoleState :=
  { history := [], historyIndex := -1, currentInput := "",
    htmlInjection := none, isPyodideReady := true, isExecuting := false,
    pendingOutput := none }

/-- Claim C5: a backend result string classified Html (starts with the
opening tag and ends with the closing tag) is routed to the HTML
injection sink exactly once and the appended transcript entry has the
submitted code as input and a null output; a result not classified
Html is stored as the entry output and nothing reaches the sink. -/
theorem html_routing_c5 : ∀ (s : ConsoleState) (code r : String),
    (isHtml (some r) = true →
      (executeCodeResolve s code (some r)).2 = [Effect.htmlSink r] ∧
      (executeCodeResolve s code (some r)).1.history = s.history ++ [⟨code, none⟩] ∧
      (executeCodeResolve s code (some r)).1.htmlInjection = some r) ∧
    (isHtml (some r) = false →
      (executeCodeResolve s code (some r)).2 = [] ∧
      (executeCodeResolve s code (some r)).1.history = s.history ++ [⟨code, some r⟩]) := by
  intro s code r
  constructor
  · intro h
    simp [executeCodeResolve, h]
  · intro h
    simp [executeCodeResolve, h]

/-- Witness for C5: the scenario D payload reaches the sink exactly
once and the entry output is null; a plain result is stored. -/
theorem html_routing_c5_witness :
    ((executeCodeResolve idleState "code" (some "<html>hi</html>")).2 =
      [Effect.htmlSink "<html>hi</html>"] ∧
     (executeCodeResolve idleState "code" (some "<html>hi</html>")).1.history =
      idleState.history ++ [⟨"code", none⟩]) ∧
    (executeCodeResolve idleState "1+1" (some "2")).1.history =
      idleState.history ++ [⟨"1+1", some "2"⟩] :=
  ⟨⟨((html_routing_c5 idleState "code" "<html>hi</html>").1 (by decide)).1,
    ((html_routing_c5 idleState "code" "<html>hi</html>").1 (by decide)).2.1⟩,
   ((html_routing_c5 idleState "1+1" "2").2 (by decide)).2⟩

/-- A concrete state about to submit code that will fail: the backend
is ready, the buffer holds the code, the cursor sits at 2. -/
def failDemoState : ConsoleState :=
  { history := [], historyIndex := 2, currentInput := "1/0",
    htmlInjection := none, isPyodideReady := true, isExecuting := false,
    pendingOutput := none }

/-- Counterexample to C6 as stated: after an Enter submission whose
backend invocation rejects, the live input buffer still holds the
submitted code — the catch branch never clears it, so the buffer is
not cleared as the claim asserts. -/
theorem failure_path_c6_counterexample :
    (submitAndFail failDemoState "1/0" "PythonError: ZeroDivisionError").currentInput
      = "1/0" ∧ ("1/0" : String) ≠ "" := by
  constructor
  · decide
  · decide

/-- Claim C6 as amended: on a failing submission the stringified error
is appended as the output of a new entry whose input is the submitted
code, the session is not terminated (the backend stays ready and usable),
ExecutionState returns to Idle and the history cursor is reset to -1 by
the Enter handler — but the live input buffer is NOT cleared: it keeps
its pre-submission content. -/
theorem failure_path_c6_amended : ∀ (s : ConsoleState) (code errStr : String),
    jsTrim code ≠ "" → s.isPyodideReady = true →
    (submitAndFail s code errStr).history = s.history ++ [⟨code, some errStr⟩] ∧
    (submitAndFail s code errStr).isExecuting = false ∧
    (submitAndFail s code errStr).historyIndex = -1 ∧
    (submitAndFail s code errStr).currentInput = s.currentInput ∧
    (submitAndFail s code errStr).isPyodideReady = true := by
  intro s code errStr h1 h2
  simp [submitAndFail, executeCodeStart, executeCodeReject, h1, h2]

/-- Witness for the amended C6 at the concrete failing submission. -/
theorem failure_path_c6_witness :
    (submitAndFail failDemoState "1/0" "PythonError: ZeroDivisionError").history =
      failDemoState.history ++ [⟨"1/0", some "PythonError: ZeroDivisionError"⟩] ∧
    (submitAndFail failDemoState "1/0" "PythonError: ZeroDivisionError").isExecuting = false ∧
    (submitAndFail failDemoState "1/0" "PythonError: ZeroDivisionError").historyIndex = -1 :=
  ⟨(failure_path_c6_amended failDemoState "1/0" "PythonError: ZeroDivisionError"
      (by decide) (by decide)).1,
   (failure_path_c6_amended failDemoState "1/0" "PythonError: ZeroDivisionError"
      (by decide) (by decide)).2.1,
   (failure_path_c6_amended failDemoState "1/0" "PythonError: ZeroDivisionError"
      (by decide) (by decide)).2.2.1⟩

/-- Claim C2: terminal text emitted while Busy is held in the
single-slot last-write-wins pending buffer (no flush happens while an
execution is in flight) and is appended as a synthetic entry with empty
input only once execution completes; when a chunk arrives during a
submission, the transcript gains exactly two entries in order — the
user entry first, then the synthetic terminal entry. -/
theorem terminal_buffering_c2 : ∀ (s : ConsoleState) (t u code : String) (r : Option String),
    s.isExecuting = true → s.pendingOutput = none →
    flushPending (stdoutCallback s (some t)) = stdoutCallback s (some t) ∧
    (stdoutCallback s (some t)).pendingOutput = some ("[Terminal]\n" ++ t) ∧
    (stdoutCallback (stdoutCallback s (some t)) (some u)).pendingOutput =
      some ("[Terminal]\n" ++ u) ∧
    (∃ out : Option String,
      (flushPending (executeCodeResolve (stdoutCallback s (some t)) code r).1).history =
        s.history ++ [⟨code, out⟩, ⟨"", some ("[Terminal]\n" ++ t)⟩]) ∧
    (flushPending (executeCodeResolve (stdoutCallback s (some t)) code r).1).pendingOutput
      = none := by
  intro s t u code r h1 h2
  have hnt := terminal_tag_ne_none t
  have hnu := terminal_tag_ne_none u
  have hs1 : stdoutCallback s (some t) =
      { s with pendingOutput := some ("[Terminal]\n" ++ t) } := by
    simp [stdoutCallback, hnt]
  refine ⟨?_, ?_, ?_, ?_, ?_⟩
  · rw [hs1]
    simp [flushPending, h1]
  · rw [hs1]
  · rw [hs1]
    simp [stdoutCallback, hnu]
  · rw [hs1]
    match r with
    | none =>
      exact ⟨none, by simp [executeCodeResolve, flushPending]⟩
    | some rv =>
      by_cases hh : isHtml (some rv) = true
      · exact ⟨none, by simp [executeCodeResolve, flushPending, hh]⟩
      · exact ⟨some rv, by simp [executeCodeResolve, flushPending, hh]⟩
  · rw [hs1]
    match r with
    | none => simp [executeCodeResolve, flushPending]
    | some rv =>
      by_cases hh : isHtml (some rv) = true <;>
        simp [executeCodeResolve, flushPending, hh]

/-- Witness for C2 in the Busy state with a concrete chunk and result:
the chunk is held while Busy and the slot holds the tagged chunk. -/
theorem terminal_buffering_c2_witness :
    flushPending (stdoutCallback busyState (some "out")) =
      stdoutCallback busyState (some "out") ∧
    (stdoutCallback busyState (some "out")).pendingOutput =
      some ("[Terminal]\n" ++ "out") ∧
    (flushPending (executeCodeResolve (stdoutCallback busyState (some "out"))
        "print(1)" (some "2")).1).pendingOutput = none :=
  ⟨(terminal_buffering_c2 busyState "out" "x" "print(1)" (some "2") (by decide) (by decide)).1,
   (terminal_buffering_c2 busyState "out" "x" "print(1)" (some "2") (by decide) (by decide)).2.1,
   (terminal_buffering_c2 busyState "out" "x" "print(1)" (some "2")
      (by decide) (by decide)).2.2.2.2⟩

/-- Claim C10: the stdout and stderr callbacks only ever install
terminal-tagged values into the pending buffer (they prepend the tag to
every emitted chunk), and every synthetic entry appended by the flush
from such a value has empty input and a non-null output starting with
the terminal tag, hence satisfies `isPyodideTerminal`, is classified
Terminal, and receives the Terminal display color. -/
theorem synthetic_entries_terminal_c10 :
    (∀ (s : ConsoleState) (c : Option String),
      (stdoutCallback s c).pendingOutput = s.pendingOutput ∨
      ∃ t, (stdoutCallback s c).pendingOutput = some ("[Terminal]\n" ++ t)) ∧
    (∀ (s : ConsoleState) (c : Option String),
      (stderrCallback s c).pendingOutput = s.pendingOutput ∨
      ∃ t, (stderrCallback s c).pendingOutput = some ("[Terminal]\n" ++ t)) ∧
    (∀ (s : ConsoleState) (t : String),
      s.isExecuting = false → s.pendingOutput = some ("[Terminal]\n" ++ t) →
      (flushPending s).history =
        s.history ++ [⟨"", some ("[Terminal]\n" ++ t)⟩] ∧
      isPyodideTerminal (some ("[Terminal]\n" ++ t)) = true ∧
      classifyOutput (some ("[Terminal]\n" ++ t)) = OutputKind.terminal ∧
      getOutputColor (some ("[Terminal]\n" ++ t)) = "#22ffff") := by
  refine ⟨?_, ?_, ?_⟩
  · intro s c
    match c with
    | none => exact Or.inl rfl
    | some t =>
      exact Or.inr ⟨t, by simp [stdoutCallback, terminal_tag_ne_none t]⟩
  · intro s c
    match c with
    | none => exact Or.inl rfl
    | some t =>
      exact Or.inr ⟨t, by simp [stderrCallback, terminal_tag_ne_none t]⟩
  · intro s t hex hpend
    have hterm : jsStartsWith ("[Terminal]\n" ++ t) "[Terminal]" = true :=
      terminal_tag_starts t
    have hHtml : jsStartsWith ("[Terminal]\n" ++ t) "<html>" = false :=
      not_starts_of_starts_short ("[Terminal]\n" ++ t) "[Terminal]" "<html>"
        hterm (by decide) (by decide)
    have hErr : jsStartsWith ("[Terminal]\n" ++ t) "PythonError:" = false :=
      not_starts_of_starts ("[Terminal]\n" ++ t) "[Terminal]" "PythonError:"
        hterm (by decide) (by decide)
    have hWarn : jsStartsWith ("[Terminal]\n" ++ t) "PythonWarning:" = false :=
      not_starts_of_starts ("[Terminal]\n" ++ t) "[Terminal]" "PythonWarning:"
        hterm (by decide) (by decide)
    refine ⟨?_, ?_, ?_, ?_⟩
    · rw [flushPending]
      simp [hex, hpend]
    · simp [isPyodideTerminal, hterm]
    · simp [classifyOutput, isHtml, isPythonError, isPythonWarning,
        isPyodideTerminal, hHtml, hErr, hWarn, hterm]
    · simp [getOutputColor, isPythonError, isPythonWarning,
        isPyodideTerminal, hErr, hWarn, hterm]

/-- Witness for C10 at a concrete pending chunk: the flush appends the
synthetic entry with empty input and the classification is Terminal. -/
theorem synthetic_entries_terminal_c10_witness :
    (flushPending { idleState with pendingOutput := some ("[Terminal]\n" ++ "hi") }).history =
      ({ idleState with pendingOutput := some ("[Terminal]\n" ++ "hi") } :
        ConsoleState).history ++ [⟨"", some ("[Terminal]\n" ++ "hi")⟩] ∧
    classifyOutput (some ("[Terminal]\n" ++ "hi")) = OutputKind.terminal ∧
    getOutputColor (some ("[Terminal]\n" ++ "hi")) = "#22ffff" :=
  ⟨(synthetic_entries_terminal_c10.2.2
      { idleState with pendingOutput := some ("[Terminal]\n" ++ "hi") } "hi"
      (by decide) rfl).1,
   (synthetic_entries_terminal_c10.2.2
      { idleState with pendingOutput := some ("[Terminal]\n" ++ "hi") } "hi"
      (by decide) rfl).2.2.1,
   (synthetic_entries_terminal_c10.2.2
      { idleState with pendingOutput := some ("[Terminal]\n" ++ "hi") } "hi"
      (by decide) rfl).2.2.2⟩

/-- Counterexample to C9 as stated: on a two-line buffer the Tab
completion sets the whole input to `objectExpr ++ "." ++ candidate`
computed from the last line, discarding the first line instead of
preserving it as the claim asserts. -/
theorem tab_completion_c9_counterexample :
    tabComplete "a = 1\nnp.ar" ["array"] = "np.array" ∧
    ("np.array" : String) ≠ "a = 1\nnp.array" := by
  constructor
  · decide
  · decide

/-- Claim C9 as amended: when the last line of the buffer splits at its
last dot into an object expression and a non-empty partial token and
the (backend-ordered) suggestion list contains a first candidate
starting with that token, Tab completion sets the ENTIRE buffer to
`objectExpr ++ "." ++ candidate` (earlier lines of a multi-line buffer
are discarded, not preserved); when the partial token is empty, no
buffer mutation occurs. -/
theorem tab_completion_c9_amended : ∀ (buffer : String) (suggs : List String),
    ((getObj buffer).2 = "" → tabComplete buffer suggs = buffer) ∧
    (∀ m : String, (getObj buffer).2 ≠ "" →
      suggs.find? (fun sugg => jsStartsWith sugg (getObj buffer).2) = some m →
      tabComplete buffer suggs = (getObj buffer).1 ++ "." ++ m) := by
  intro buffer suggs
  constructor
  · intro h
    simp [tabComplete, h]
  · intro m h1 h2
    simp [tabComplete, h1, h2]

/-- Witness for the amended C9: a single-line buffer completes to the
object expression, the dot and the first matching candidate; a buffer
whose last line ends in a dot is left unchanged. -/
theorem tab_completion_c9_witness :
    tabComplete "np.ar" ["arange", "array"] = (getObj "np.ar").1 ++ "." ++ "arange" ∧
    tabComplete "np." ["arange"] = "np." :=
  ⟨(tab_completion_c9_amended "np.ar" ["arange", "array"]).2 "arange"
      (by decide) (by decide),
   (tab_completion_c9_amended "np." ["arange"]).1 (by decide)⟩

theorem recallOlder_iter_bounds (hist : List HistoryItem) (cur : String)
    (hL : 1 ≤ (hist.length : Int)) :
    ∀ n : Nat, 1 ≤ n →
      0 ≤ ((recallOlder hist)^[n] ((-1 : Int), cur)).1 ∧
      ((recallOlder hist)^[n] ((-1 : Int), cur)).1 ≤ (n : Int) - 1 ∧
      ((recallOlder hist)^[n] ((-1 : Int), cur)).1 ≤ (hist.length : Int) - 1 := by
  intro n
  induction n with
  | zero => omega
  | succ m ih =>
    intro _
    rw [Function.iterate_succ_apply']
    rcases Nat.eq_zero_or_pos m with hm | hm
    · subst hm
      simp only [Function.iterate_zero_apply]
      rw [recallOlder]
      have hcond : (-1 : Int) < (hist.length : Int) - 1 := by omega
      simp only [hcond, if_pos]
      constructor
      · omega
      constructor
      · simp
      · omega
    · obtain ⟨h0, h1, h2⟩ := ih hm
      rw [recallOlder]
      by_cases hc : ((recallOlder hist)^[m] ((-1 : Int), cur)).1 < (hist.length : Int) - 1
      · simp only [hc, if_pos]
        push_cast
        constructor
        · omega
        constructor
        · omega
        · omega
      · simp only [hc, if_neg, not_false_iff]
        constructor
        · omega
        constructor
        · omega
        · omega

theorem recallNewer_fixed (hist : List HistoryItem) :
    recallNewer hist ((-1 : Int), "") = ((-1 : Int), "") := by
  rw [recallNewer]
  norm_num

theorem recallNewer_iter_exits (hist : List HistoryItem) :
    ∀ (m : Nat) (i : Int) (c : String), 0 ≤ i → i < (m : Int) →
      (recallNewer hist)^[m] (i, c) = ((-1 : Int), "") := by
  intro m
  induction m with
  | zero => intro i c h0 h1; omega
  | succ k ih =>
    intro i c h0 h1
    rw [Function.iterate_succ_apply]
    rcases lt_or_eq_of_le h0 with hpos | hzero
    · have : recallNewer hist (i, c) = (i - 1, histInputAt hist (i - 1)) := by
        rw [recallNewer]
        simp only [hpos, if_pos]
      rw [this]
      apply ih
      · omega
      · omega
    · have : recallNewer hist (i, c) = ((-1 : Int), "") := by
        rw [recallNewer]
        simp only [← hzero]
        norm_num
      rw [this]
      exact Function.iterate_fixed (recallNewer_fixed hist) k

/-- Counterexample to C4 as stated: with a one-entry transcript and the
pre-navigation buffer content distinct from the empty string, one
`recallOlder` followed by one `recallNewer` returns the cursor to -1
but sets the buffer to the empty string, not back to the
pre-navigation value. -/
theorem history_roundtrip_c4_counterexample :
    (recallNewer [⟨"a", none⟩])^[1] ((recallOlder [⟨"a", none⟩])^[1] ((-1 : Int), "xyz")) =
      ((-1 : Int), "") ∧ ("" : String) ≠ "xyz" := by
  constructor
  · decide
  · decide

/-- Claim C4 as amended: for every transcript and pre-navigation buffer
content, n `recallOlder` calls followed by n `recallNewer` calls return
the history cursor to -1; the input buffer equals its pre-navigation
value when no navigation occurred (n = 0 or the transcript is empty),
and is otherwise cleared to the empty string rather than restored. -/
theorem history_roundtrip_c4_amended :
    ∀ (hist : List HistoryItem) (cur : String) (n : Nat),
      (recallNewer hist)^[n] ((recallOlder hist)^[n] ((-1 : Int), cur)) =
        ((-1 : Int), if n = 0 ∨ hist = [] then cur else "") := by
  intro hist cur n
  by_cases hL : hist = []
  · subst hL
    have hup : recallOlder [] ((-1 : Int), cur) = ((-1 : Int), cur) := by
      rw [recallOlder]
      norm_num
    have hdown : recallNewer [] ((-1 : Int), cur) = ((-1 : Int), cur) := by
      rw [recallNewer]
      norm_num
    rw [Function.iterate_fixed hup n, Function.iterate_fixed hdown n]
    simp
  · rcases Nat.eq_zero_or_pos n with hn | hn
    · subst hn
      simp
    · have hlen : 1 ≤ (hist.length : Int) := by
        have : hist.length ≠ 0 := fun h => hL (List.length_eq_zero.mp h)
        omega
      obtain ⟨h0, h1, _⟩ := recallOlder_iter_bounds hist cur hlen n hn
      have hiter := recallNewer_iter_exits hist n
        ((recallOlder hist)^[n] ((-1 : Int), cur)).1
        ((recallOlder hist)^[n] ((-1 : Int), cur)).2 h0 (by omega)
      rw [Prod.mk.eta] at hiter
      rw [hiter]
      have : ¬(n = 0 ∨ hist = []) := by
        push_neg
        exact ⟨by omega, hL⟩
      simp [this]

theorem skipOlderLoop_spec (hist : List HistoryItem) (i : Int) :
    i ≤ skipOlderLoop hist i ∧
    (i ≤ (hist.length : Int) - 1 → skipOlderLoop hist i ≤ (hist.length : Int) - 1) ∧
    (nonNavigable (histInputAt hist (skipOlderLoop hist i)) = false ∨
      (hist.length : Int) - 1 ≤ skipOlderLoop hist i) ∧
    (∀ k : Int, i ≤ k → k < skipOlderLoop hist i →
      nonNavigable (histInputAt hist k) = true) := by
  by_cases hg : i < (hist.length : Int) - 1
  · by_cases hn : nonNavigable (histInputAt hist i) = true
    · have heq : skipOlderLoop hist i = skipOlderLoop hist (i + 1) := by
        rw [skipOlderLoop]
        simp [hg, hn]
      obtain ⟨ih1, ih2, ih3, ih4⟩ := skipOlderLoop_spec hist (i + 1)
      rw [heq]
      refine ⟨by omega, fun _ => ih2 (by omega), ih3, ?_⟩
      intro k hk1 hk2
      rcases eq_or_lt_of_le hk1 with hk | hk
      · rw [← hk]
        exact hn
      · exact ih4 k (by omega) hk2
    · have heq : skipOlderLoop hist i = i := by
        rw [skipOlderLoop]
        simp [hg, hn]
      rw [heq]
      refine ⟨le_refl i, fun h => h, Or.inl (by simpa using hn), ?_⟩
      intro k hk1 hk2
      omega
  · have heq : skipOlderLoop hist i = i := by
      rw [skipOlderLoop]
      simp [hg]
    rw [heq]
    refine ⟨le_refl i, fun h => h, Or.inr (by omega), ?_⟩
    intro k hk1 hk2
    omega
termination_by ((hist.length : Int) - 1 - i).toNat
decreasing_by omega

theorem skipNewerLoop_spec (hist : List HistoryItem) (i : Int) :
    skipNewerLoop hist i ≤ i ∧
    (0 ≤ i → 0 ≤ skipNewerLoop hist i) ∧
    (nonNavigable (histInputAt hist (skipNewerLoop hist i)) = false ∨
      skipNewerLoop hist i ≤ 0) ∧
    (∀ k : Int, k ≤ i → skipNewerLoop hist i < k →
      nonNavigable (histInputAt hist k) = true) := by
  by_cases hg : 0 < i
  · by_cases hn : nonNavigable (histInputAt hist i) = true
    · have heq : skipNewerLoop hist i = skipNewerLoop hist (i - 1) := by
        rw [skipNewerLoop]
        simp [hg, hn]
      obtain ⟨ih1, ih2, ih3, ih4⟩ := skipNewerLoop_spec hist (i - 1)
      rw [heq]
      refine ⟨by omega, fun _ => by have := ih2 (by omega); omega, ih3, ?_⟩
      intro k hk1 hk2
      rcases eq_or_lt_of_le hk1 with hk | hk
      · rw [hk]
        exact hn
      · exact ih4 k (by omega) hk2
    · have heq : skipNewerLoop hist i = i := by
        rw [skipNewerLoop]
        simp [hg, hn]
      rw [heq]
      refine ⟨le_refl i, fun h => h, Or.inl (by simpa using hn), ?_⟩
      intro k hk1 hk2
      omega
  · have heq : skipNewerLoop hist i = i := by
      rw [skipNewerLoop]
      simp [hg]
    rw [heq]
    refine ⟨le_refl i, fun h => h, Or.inr (by omega), ?_⟩
    intro k hk1 hk2
    omega
termination_by i.toNat
decreasing_by omega

/-- Counterexample to C3 as stated: on a transcript whose only entry is
the version-probe sentinel, `recallOlder` lands the cursor on that
non-navigable entry (and loads its text into the buffer), because the
skip loop stops at the boundary index instead of refusing to move. -/
theorem history_skip_c3_counterexample :
    recallOlderSkip [⟨"Python version", none⟩] (-1) "live" =
      ((0 : Int), "Python version") ∧
    nonNavigable "Python version" = true := by
  have h1 : skipOlderLoop [⟨"Python version", none⟩] 0 = 0 := by
    rw [skipOlderLoop]
    norm_num
  constructor
  · rw [recallOlderSkip]
    norm_num [h1, histInputAt]
  · decide

/-- Claim C3 as amended: `recallOlder` and `recallNewer` skip over runs
of non-navigable entries (version-probe sentinel or empty input) while
advancing, and the transcript array itself is never filtered or
modified; however the cursor may land ON a non-navigable entry when the
skip reaches the boundary (the oldest index for `recallOlder`, index 0
for `recallNewer`), since the loops stop at the boundary: the landing
entry is either navigable or the boundary entry itself, and every
entry strictly between the old and the new cursor is non-navigable. -/
theorem history_skip_c3_amended :
    ∀ (hist : List HistoryItem) (idx j : Int) (cur txt : String),
    (idx < (hist.length : Int) - 1 → recallOlderSkip hist idx cur = (j, txt) →
      idx < j ∧ j ≤ (hist.length : Int) - 1 ∧ txt = histInputAt hist j ∧
      (nonNavigable txt = false ∨ j = (hist.length : Int) - 1) ∧
      (∀ k : Int, idx < k → k < j → nonNavigable (histInputAt hist k) = true)) ∧
    (0 < idx → recallNewerSkip hist idx cur = (j, txt) →
      j < idx ∧ 0 ≤ j ∧ txt = histInputAt hist j ∧
      (nonNavigable txt = false ∨ j = 0) ∧
      (∀ k : Int, j < k → k < idx → nonNavigable (histInputAt hist k) = true)) ∧
    (idx = 0 → recallNewerSkip hist idx cur = ((-1 : Int), "")) ∧
    (¬ idx < (hist.length : Int) - 1 → recallOlderSkip hist idx cur = (idx, cur)) := by
  intro hist idx j cur txt
  refine ⟨?_, ?_, ?_, ?_⟩
  · intro hg heq
    rw [recallOlderSkip] at heq
    simp only [hg, if_pos] at heq
    obtain ⟨hj, htxt⟩ := Prod.mk.injEq .. ▸ heq
    obtain ⟨s1, s2, s3, s4⟩ := skipOlderLoop_spec hist (idx + 1)
    subst hj
    constructor
    · omega
    constructor
    · exact s2 (by omega)
    constructor
    · exact htxt.symm
    constructor
    · rcases s3 with h | h
      · left
        rw [htxt] at h
        exact h
      · right
        have := s2 (by omega)
        omega
    · intro k hk1 hk2
      exact s4 k (by omega) hk2
  · intro hg heq
    rw [recallNewerSkip] at heq
    simp only [hg, if_pos] at heq
    obtain ⟨hj, htxt⟩ := Prod.mk.injEq .. ▸ heq
    obtain ⟨s1, s2, s3, s4⟩ := skipNewerLoop_spec hist (idx - 1)
    subst hj
    constructor
    · omega
    constructor
    · have := s2 (by omega)
      omega
    constructor
    · exact htxt.symm
    constructor
    · rcases s3 with h | h
      · left
        rw [htxt] at h
        exact h
      · right
        have := s2 (by omega)
        omega
    · intro k hk1 hk2
      exact s4 k (by omega) hk1
  · intro hg
    rw [recallNewerSkip]
    subst hg
    norm_num
  · intro hg
    rw [recallOlderSkip]
    simp [hg]

/-- A concrete transcript holding a genuine submission below a
synthetic out-of-band entry, used by the C3 witness. -/
def demoHist : List HistoryItem :=
  [⟨"a", none⟩, ⟨"", some "[Terminal]\nt"⟩]

/-- Witness for the amended C3: from the live cursor, `recallOlder`
skips the synthetic entry at offset 0 and lands on the genuine
submission at offset 1, whose text is loaded into the buffer. -/
theorem history_skip_c3_witness :
    (-1 : Int) < 1 ∧ (1 : Int) ≤ (demoHist.length : Int) - 1 ∧
    "a" = histInputAt demoHist 1 ∧
    (nonNavigable "a" = false ∨ (1 : Int) = (demoHist.length : Int) - 1) := by
  have hlen : demoHist.length = 2 := rfl
  have hat0 : histInputAt demoHist 0 = "" := by decide
  have hat1 : histInputAt demoHist 1 = "a" := by decide
  have h2 : skipOlderLoop demoHist 1 = 1 := by
    rw [skipOlderLoop]
    norm_num [hlen]
  have h1 : skipOlderLoop demoHist 0 = 1 := by
    rw [skipOlderLoop]
    norm_num [hlen, hat0, h2, nonNavigable]
  have heq : recallOlderSkip demoHist (-1) "z" = ((1 : Int), "a") := by
    rw [recallOlderSkip]
    norm_num [hlen, h1, hat1]
  have h := (history_skip_c3_amended demoHist (-1) 1 "z" "a").1
    (by norm_num [hlen]) heq
  exact ⟨h.1, h.2.1, h.2.2.1, h.2.2.2.1⟩

/-- Witness for C7 at the scenario inputs: a trailing colon forces a
newline insertion and a plain single-line expression submits. -/
theorem enter_submission_rule_c7_witness :
    enterAction "for i in range(3):" = EnterAction.insertNewline ∧
    enterAction "1+1" = EnterAction.submit :=
  ⟨(enter_submission_rule_c7 "for i in range(3):").2.mpr
      (Or.inl (Or.inl (by decide))),
   (enter_submission_rule_c7 "1+1").1.mpr (by decide)⟩

/-- Witness for the amended C4 at a concrete transcript: two recalls up
followed by two recalls down land on cursor -1 with a cleared buffer. -/
theorem history_roundtrip_c4_witness :
    (recallNewer [⟨"a", none⟩])^[2] ((recallOlder [⟨"a", none⟩])^[2] ((-1 : Int), "keep")) =
      ((-1 : Int), "") := by
  have h := history_roundtrip_c4_amended [⟨"a", none⟩] "keep" 2
  simpa using h
